import Mathlib

/-!
Shallow embedding of `src/tools/session.py` (`PersistentSSMSession`).

The remote execution service (boto3 SSM client: `send_command`,
`get_command_invocation`) is modelled as an oracle: each remote dispatch
made by a handler consumes one oracle response, which is either the
captured standard-output content (`Except.ok`) or a raised transport
exception carrying its message (`Except.error`).  Python string methods
(`strip`, `split`, `startswith`, `in`, `join`, slicing) are embedded as
structural recursions over the character list of a `String`, matching
Python's semantics on the ASCII inputs the program handles.
-/

namespace Session

/-- Python `str.strip()` on a character list: drop ASCII whitespace from
both ends. -/
def stripChars (cs : List Char) : List Char :=
  ((cs.dropWhile Char.isWhitespace).reverse.dropWhile Char.isWhitespace).reverse

/-- Python `str.strip()`. -/
def pyStrip (s : String) : String := String.mk (stripChars s.data)

/-- Python `str.startswith(p)`: `p` is a prefix of `s`. -/
def pyStartsWith (s p : String) : Bool := List.isPrefixOf p.data s.data

/-- Python `c in s` for a single character `c`. -/
def pyContainsChar (s : String) (c : Char) : Bool := s.data.contains c

/-- Python `s[n:]`: drop the first `n` characters. -/
def pyDropChars (s : String) (n : Nat) : String := String.mk (s.data.drop n)

/-- Python `s.split("&&")` on a character list: cut at every
non-overlapping occurrence of `&&`, scanning left to right. -/
def splitSepChars : List Char → List (List Char)
  | [] => [[]]
  | '&' :: '&' :: rest => [] :: splitSepChars rest
  | c :: rest =>
    match splitSepChars rest with
    | [] => [[c]]
    | h :: t => (c :: h) :: t

/-- Python `s.split("&&")`. -/
def pySplitSep (s : String) : List String := (splitSepChars s.data).map String.mk

/-- Python `s.split("=", 1)` on a character list: `none` when `s` has no
`=` (where Python's 2-element unpacking would raise `ValueError`),
otherwise the parts before and after the first `=`. -/
def splitFirstEqChars : List Char → Option (List Char × List Char)
  | [] => none
  | '=' :: rest => some ([], rest)
  | c :: rest =>
    match splitFirstEqChars rest with
    | none => none
    | some (a, b) => some (c :: a, b)

/-- Python `var_name, var_value = s.split("=", 1)`. -/
def splitEnvVar (s : String) : Option (String × String) :=
  match splitFirstEqChars s.data with
  | none => none
  | some (a, b) => some (String.mk a, String.mk b)

/-- Python `sep.join(l)`. -/
def joinWith (sep : String) : List String → String
  | [] => ""
  | [x] => x
  | x :: y :: xs => x ++ sep ++ joinWith sep (y :: xs)

/-- One remote round-trip (`send_command`/`_wait_for_command`/
`get_command_invocation`): given the dispatched shell string, either the
captured standard output or a raised exception's message. -/
def RemoteResponse := String → Except String String

/-- The remote service across a whole `execute_command` call: call index
`n` gives the response to the `n`-th dispatch. -/
def RemoteOracle := Nat → String → Except String String

/-- The classification of one atomic command,
`execute_command` lines 80–91. -/
inductive CommandKind where
  | DirectoryChange
  | VariableAssignment
  | GeneralExecution
deriving DecidableEq

/-- The dispatch chain of `execute_command`: `cmd.startswith("cd ")`
first, then `"=" in cmd and not cmd.startswith(("export ", "echo ",
"printf "))`, else normal execution. -/
def classify (cmd : String) : CommandKind :=
  if pyStartsWith cmd "cd " then CommandKind.DirectoryChange
  else if pyContainsChar cmd '=' &&
      !(pyStartsWith cmd "export " || pyStartsWith cmd "echo " ||
        pyStartsWith cmd "printf ") then CommandKind.VariableAssignment
  else CommandKind.GeneralExecution

instance exceptDecEq {α β : Type} [DecidableEq α] [DecidableEq β] :
    DecidableEq (Except α β) := fun x y =>
  match x, y with
  | Except.error a, Except.error b => decidable_of_iff (a = b) (by simp)
  | Except.ok a, Except.ok b => decidable_of_iff (a = b) (by simp)
  | Except.error _, Except.ok _ => isFalse (by simp)
  | Except.ok _, Except.error _ => isFalse (by simp)

/-- The session-tracking fields of `PersistentSSMSession`.
`environment_vars` is a Python dict: an association list with unique
keys in insertion order. -/
structure SessionState where
  current_directory : String
  environment_vars : List (String × String)
  command_history : List String
deriving DecidableEq

/-- The state set by `__init__` before `initialize_directory` runs. -/
def initSessionState : SessionState :=
  { current_directory := "/home/ec2-user"
    environment_vars := []
    command_history := [] }

/-- Python `dict[k] = v`: replace the value in place at the entry whose
key is `k` (dict keys are unique, so the first match is the only one),
append a new entry otherwise. -/
def updateAssoc : List (String × String) → String → String →
    List (String × String)
  | [], k, v => [(k, v)]
  | p :: rest, k, v =>
    if p.1 == k then (k, v) :: rest else p :: updateAssoc rest k v

/-- Python `dict.get(k)`. -/
def lookupAssoc (m : List (String × String)) (k : String) : Option String :=
  match m.find? (fun p => p.1 == k) with
  | none => none
  | some p => some p.2

/-- The dict returned by `get_state` (lines 201–209). -/
structure SessionStateView where
  current_directory : String
  environment_variables : List (String × String)
  command_history : List String
deriving DecidableEq

/-- Function `get_state`: the current directory, the variable mapping, and
`command_history[-10:]` (the empty list when the history is empty). -/
def get_state (st : SessionState) : SessionStateView :=
  { current_directory := st.current_directory
    environment_variables := st.environment_vars
    command_history :=
      if st.command_history = [] then []
      else st.command_history.drop (st.command_history.length - 10) }

/-- Source `_handle_cd_command` line 97: `command.strip()[3:].strip()`. -/
def cdDirPath (command : String) : String :=
  pyStrip (pyDropChars (pyStrip command) 3)

/-- The probe-and-change shell string built by `_handle_cd_command`
lines 99–107 from the current directory and the extracted path. -/
def buildCheckCmd (cur dir_path : String) : String :=
  if dir_path = "" then "cd && pwd"
  else if pyStartsWith dir_path "/" then
    "if [ -d '" ++ dir_path ++ "' ]; then cd '" ++ dir_path ++
      "' && pwd; else echo 'Directory not found'; fi"
  else
    "if [ -d '" ++ cur ++ "/" ++ dir_path ++ "' ] || [ -d '" ++ dir_path ++
      "' ]; then cd '" ++ cur ++ "' && cd '" ++ dir_path ++
      "' && pwd; else echo 'Directory not found'; fi"

/-- Source `_handle_cd_command` (lines 95–127).  The handler has no
`try`/`except`: a raised dispatch or fetch exception propagates
(`Except.error`).  On a fetched output it trims it, and either adopts it
as the new current directory (recording the command) or reports the
sentinel.  The third component is the dispatched shell string. -/
def handle_cd_command (st : SessionState) (command : String)
    (r : RemoteResponse) : Except String (SessionState × String × String) :=
  let dir_path := cdDirPath command
  let check_cmd := buildCheckCmd st.current_directory dir_path
  match r check_cmd with
  | Except.error e => Except.error e
  | Except.ok out =>
    let result := pyStrip out
    if result ≠ "Directory not found" then
      Except.ok
        ({ st with
            current_directory := result
            command_history := st.command_history ++ [command] },
          "Changed to directory: " ++ result, check_cmd)
    else
      Except.ok (st, "Directory not found", check_cmd)

/-- The remote string built by `_handle_env_var_setting` line 136. -/
def buildEnvSetCmd (cur var_name var_value : String) : String :=
  "cd '" ++ cur ++ "' && " ++ var_name ++ "=" ++ var_value ++
    " && echo 'Set " ++ var_name ++ "=" ++ var_value ++ "'"

/-- Source `_handle_env_var_setting` (lines 129–149).  Everything runs inside
`try`: the local mapping update happens before the dispatch, and a
raised dispatch exception is converted to an error string without
rolling that update back.  The third component is the dispatched shell
string, `none` when the `split("=", 1)` unpacking itself raised. -/
def handle_env_var_setting (st : SessionState) (command : String)
    (r : RemoteResponse) : SessionState × String × Option String :=
  match splitEnvVar (pyStrip command) with
  | none =>
    (st, "Error setting environment variable: not enough values to unpack (expected 2, got 1)",
      none)
  | some (var_name, var_value) =>
    let st1 := { st with
      environment_vars := updateAssoc st.environment_vars var_name var_value }
    let full_command := buildEnvSetCmd st.current_directory var_name var_value
    match r full_command with
    | Except.error e =>
      (st1, "Error setting environment variable: " ++ e, some full_command)
    | Except.ok _ =>
      ({ st1 with command_history := st1.command_history ++ [command] },
        "Set environment variable " ++ var_name ++ "=" ++ var_value,
        some full_command)

/-- Source `_execute_normal_command` line 154: the tracked variables rendered
`name='value'` and joined with single spaces. -/
def envVarsString (m : List (String × String)) : String :=
  joinWith " " (m.map (fun p => p.1 ++ "='" ++ p.2 ++ "'"))

/-- Source `_execute_normal_command` line 155: the rendering plus a trailing
space, or empty when no variable is tracked. -/
def envPrefixString (m : List (String × String)) : String :=
  if envVarsString m = "" then "" else envVarsString m ++ " "

/-- Source `_execute_normal_command` line 158: the full dispatched string. -/
def buildNormalCommand (st : SessionState) (command : String) : String :=
  "cd '" ++ st.current_directory ++ "' && " ++
    envPrefixString st.environment_vars ++ command

/-- Source `_execute_normal_command` (lines 151–176).  The dispatch and fetch
run inside `try`: an exception becomes an error string, success returns
the raw captured output and records the command.  The third component
is the dispatched shell string. -/
def execute_normal_command (st : SessionState) (command : String)
    (r : RemoteResponse) : SessionState × String × String :=
  let full_command := buildNormalCommand st command
  match r full_command with
  | Except.error e => (st, "Error executing command: " ++ e, full_command)
  | Except.ok out =>
    ({ st with command_history := st.command_history ++ [command] },
      out, full_command)

/-- Source `execute_command` line 76: split on `&&`, strip each segment, keep
the non-empty ones. -/
def parseCommands (input : String) : List String :=
  ((pySplitSep input).map pyStrip).filter (fun c => c != "")

/-- The loop body of `execute_command` (lines 80–91) over the parsed
atomic commands: classify each, run its handler against the oracle
(call index `n` advances per dispatch), collect result strings and
dispatched shell strings.  An exception escaping `_handle_cd_command`
propagates and aborts the remaining commands. -/
def runCommands (st : SessionState) (cmds : List String) (o : RemoteOracle)
    (n : Nat) : Except String (SessionState × List String × List String) :=
  match cmds with
  | [] => Except.ok (st, [], [])
  | cmd :: rest =>
    match classify cmd with
    | CommandKind.DirectoryChange =>
      match handle_cd_command st cmd (o n) with
      | Except.error e => Except.error e
      | Except.ok (st1, res, disp) =>
        match runCommands st1 rest o (n + 1) with
        | Except.error e => Except.error e
        | Except.ok (s2, rs, ds) => Except.ok (s2, res :: rs, disp :: ds)
    | CommandKind.VariableAssignment =>
      match handle_env_var_setting st cmd (o n) with
      | (st1, res, some disp) =>
        match runCommands st1 rest o (n + 1) with
        | Except.error e => Except.error e
        | Except.ok (s2, rs, ds) => Except.ok (s2, res :: rs, disp :: ds)
      | (st1, res, none) =>
        match runCommands st1 rest o n with
        | Except.error e => Except.error e
        | Except.ok (s2, rs, ds) => Except.ok (s2, res :: rs, ds)
    | CommandKind.GeneralExecution =>
      match execute_normal_command st cmd (o n) with
      | (st1, res, disp) =>
        match runCommands st1 rest o (n + 1) with
        | Except.error e => Except.error e
        | Except.ok (s2, rs, ds) => Except.ok (s2, res :: rs, disp :: ds)

/-- Source `execute_command` (lines 72–93): parse, run the atomic commands in
order, join the results with newlines.  Also returns the final state
and the trace of dispatched shell strings. -/
def execute_command (st : SessionState) (input : String) (o : RemoteOracle) :
    Except String (SessionState × String × List String) :=
  match runCommands st (parseCommands input) o 0 with
  | Except.error e => Except.error e
  | Except.ok (s, rs, ds) => Except.ok (s, joinWith "\n" rs, ds)

/-- The terminal-status test of `_wait_for_command` line 187. -/
def isTerminalStatus (s : String) : Bool :=
  s == "Success" || s == "Failed" || s == "Cancelled" || s == "TimedOut"

/-- Source `_wait_for_command` lines 191–192: `min(sleep_time * 2**attempt, 15)`. -/
def backoffSleep (sleep_time attempt : Nat) : Nat :=
  min (sleep_time * 2 ^ attempt) 15

/-- The loop of `_wait_for_command` from attempt `a` with `fuel`
attempts left.  The status query at attempt `a` is `q a`: a raised
query exception (`Except.error`) is swallowed, a flat `sleep_time`
delay is recorded, and the loop continues; a terminal status returns
`true` with no further sleep; a non-terminal status records the capped
exponential sleep.  Returns the flag and the sleep trace. -/
def waitFrom (q : Nat → Except String String) (sleep_time a fuel : Nat) :
    Bool × List Nat :=
  match fuel with
  | 0 => (false, [])
  | fuel' + 1 =>
    match q a with
    | Except.error _ =>
      let p := waitFrom q sleep_time (a + 1) fuel'
      (p.1, sleep_time :: p.2)
    | Except.ok status =>
      if isTerminalStatus status then (true, [])
      else
        let p := waitFrom q sleep_time (a + 1) fuel'
        (p.1, backoffSleep sleep_time a :: p.2)

/-- Source `_wait_for_command` (lines 178–199), `max_retries=10`,
`sleep_time=3` by default. -/
def wait_for_command (q : Nat → Except String String)
    (max_retries : Nat := 10) (sleep_time : Nat := 3) : Bool × List Nat :=
  waitFrom q sleep_time 0 max_retries

/-- The sleep `_wait_for_command` records after a non-returning attempt
`a`: flat `sleep_time` when the query raised, capped exponential
backoff otherwise. -/
def sleepAt (q : Nat → Except String String) (sleep_time a : Nat) : Nat :=
  match q a with
  | Except.error _ => sleep_time
  | Except.ok _ => backoffSleep sleep_time a

/-- Attempt `a` ends the polling loop: the query returned (did not
raise) a terminal status. -/
def attemptTerminates (q : Nat → Except String String) (a : Nat) : Prop :=
  ∃ s, q a = Except.ok s ∧ isTerminalStatus s = true

instance (q : Nat → Except String String) (a : Nat) :
    Decidable (attemptTerminates q a) := by
  unfold attemptTerminates
  match h : q a with
  | Except.error e => exact isFalse (by simp [h])
  | Except.ok s => exact decidable_of_iff (isTerminalStatus s = true) (by simp [h])

/-! Helper lemmas shared by the claim theorems. -/

theorem lookupAssoc_updateAssoc (m : List (String × String)) (k v : String) :
    lookupAssoc (updateAssoc m k v) k = some v := by
  induction m with
  | nil => simp [updateAssoc, lookupAssoc, List.find?_cons]
  | cons p rest ih =>
    by_cases hp : p.1 = k
    · simp [updateAssoc, lookupAssoc, List.find?_cons, hp]
    · have hp' : (p.1 == k) = false := by simpa using hp
      simp only [updateAssoc, hp', Bool.false_eq_true, if_false,
        lookupAssoc, List.find?_cons] at ih ⊢
      simpa [hp'] using ih

theorem joinWith_cons_length (sep x : String) (xs : List String) :
    x.length ≤ (joinWith sep (x :: xs)).length := by
  cases xs with
  | nil => simp [joinWith]
  | cons y ys =>
    simp only [joinWith, String.length_append]
    omega

theorem envVarsString_cons_ne_empty (p : String × String)
    (rest : List (String × String)) : envVarsString (p :: rest) ≠ "" := by
  intro h
  have h1 : (p.1 ++ "='" ++ p.2 ++ "'").length ≤ (envVarsString (p :: rest)).length := by
    simpa [envVarsString] using
      joinWith_cons_length " " (p.1 ++ "='" ++ p.2 ++ "'")
        (rest.map (fun q => q.1 ++ "='" ++ q.2 ++ "'"))
  rw [h] at h1
  have e0 : ("" : String).length = 0 := rfl
  have e1 : ("='" : String).length = 2 := rfl
  have e2 : ("'" : String).length = 1 := rfl
  rw [String.length_append, String.length_append, String.length_append,
    e0, e1, e2] at h1
  omega

end Session

namespace Session

/-- C1 counterexample: the claim classifies a command that is exactly
`cd` as a DirectoryChange, but `execute_command` checks only
`cmd.startswith("cd ")`, so a bare `cd` falls through to general
execution. -/
theorem classify_bare_cd_counterexample :
    classify "cd" ≠ CommandKind.DirectoryChange ∧
    classify "cd" = CommandKind.GeneralExecution := by
  constructor
  · decide
  · decide

/-- C1 (amended): classification selects exactly one of the three kinds
by the stated precedence, where a command is a DirectoryChange exactly
when it starts with `cd ` (a command that is exactly `cd` is a
GeneralExecution); otherwise it is a VariableAssignment when it
contains `=` and does not start with `export `, `echo `, or `printf `;
otherwise it is a GeneralExecution. -/
theorem classify_precedence_amended (cmd : String) :
    (classify cmd = CommandKind.DirectoryChange ↔
      pyStartsWith cmd "cd " = true) ∧
    (classify cmd = CommandKind.VariableAssignment ↔
      (pyStartsWith cmd "cd " = false ∧ pyContainsChar cmd '=' = true ∧
        pyStartsWith cmd "export " = false ∧ pyStartsWith cmd "echo " = false ∧
        pyStartsWith cmd "printf " = false)) ∧
    (classify cmd = CommandKind.GeneralExecution ↔
      (pyStartsWith cmd "cd " = false ∧
        (pyContainsChar cmd '=' = false ∨ pyStartsWith cmd "export " = true ∨
          pyStartsWith cmd "echo " = true ∨ pyStartsWith cmd "printf " = true))) := by
  unfold classify
  cases h1 : pyStartsWith cmd "cd " <;>
    cases h2 : pyContainsChar cmd '=' <;>
      cases h3 : pyStartsWith cmd "export " <;>
        cases h4 : pyStartsWith cmd "echo " <;>
          cases h5 : pyStartsWith cmd "printf " <;>
            simp

/-- C8: `get_state` exposes the session fields unchanged, and its
`command_history` is exactly the most recent (at most 10) recorded
commands, a suffix of the full history in recording order. -/
theorem get_state_spec (st : SessionState) :
    (get_state st).command_history.length ≤ 10 ∧
    (get_state st).command_history
      = st.command_history.drop (st.command_history.length - 10) ∧
    (get_state st).command_history.IsSuffix st.command_history ∧
    (get_state st).current_directory = st.current_directory ∧
    (get_state st).environment_variables = st.environment_vars := by
  have hh : (get_state st).command_history
      = st.command_history.drop (st.command_history.length - 10) := by
    by_cases h : st.command_history = []
    · simp [get_state, h]
    · simp [get_state, h]
  refine ⟨?_, hh, ?_, rfl, rfl⟩
  · rw [hh, List.length_drop]; omega
  · rw [hh]; exact List.drop_suffix _ _

/-- C10: an input that is empty or only whitespace and `&&` separators
parses to no atomic commands, so `execute_command` returns the empty
string, dispatches nothing, and leaves the session state unchanged. -/
theorem execute_empty_input (st : SessionState) (input : String)
    (o : RemoteOracle) (h : ∀ seg ∈ pySplitSep input, pyStrip seg = "") :
    execute_command st input o = Except.ok (st, "", []) := by
  have hparse : parseCommands input = [] := by
    unfold parseCommands
    rw [List.filter_eq_nil_iff]
    intro a ha
    obtain ⟨seg, hseg, rfl⟩ := List.mem_map.mp ha
    simp [h seg hseg]
  unfold execute_command
  rw [hparse]
  simp [runCommands, joinWith]

/-- C10 witness. -/
theorem execute_empty_input_witness :
    execute_command initSessionState "  &&  && " (fun _ _ => Except.ok "x")
      = Except.ok (initSessionState, "", []) :=
  execute_empty_input initSessionState "  &&  && " (fun _ _ => Except.ok "x")
    (by decide)

/-- C3: for a command splitting on the first `=` into a name and a
value, `_handle_env_var_setting` updates the in-memory mapping with
that pair for every remote response — also when the dispatch raises —
and `get_state` reports the new value; the update is never rolled
back. -/
theorem env_var_update_unconditional (st : SessionState)
    (command var_name var_value : String) (r : RemoteResponse)
    (h : splitEnvVar (pyStrip command) = some (var_name, var_value)) :
    (handle_env_var_setting st command r).1.environment_vars
      = updateAssoc st.environment_vars var_name var_value ∧
    lookupAssoc (handle_env_var_setting st command r).1.environment_vars
      var_name = some var_value ∧
    (get_state (handle_env_var_setting st command r).1).environment_variables
      = updateAssoc st.environment_vars var_name var_value := by
  unfold handle_env_var_setting
  rw [h]
  cases hr : r (buildEnvSetCmd st.current_directory var_name var_value) <;>
    simp [hr, get_state, lookupAssoc_updateAssoc]

/-- C3 witness: `FOO=bar` is locally recorded even when the remote
dispatch raises. -/
theorem env_var_update_unconditional_witness :
    lookupAssoc
      (handle_env_var_setting initSessionState "FOO=bar"
        (fun _ => Except.error "boom")).1.environment_vars "FOO"
      = some "bar" :=
  (env_var_update_unconditional initSessionState "FOO=bar" "FOO" "bar"
    (fun _ => Except.error "boom") (by decide)).2.1

/-- C9 counterexample: `FOO=` is classified as a VariableAssignment
with an empty value, and the handler produces the ordinary success
confirmation — not a usage-error result. -/
theorem env_missing_value_counterexample :
    classify "FOO=" = CommandKind.VariableAssignment ∧
    (handle_env_var_setting initSessionState "FOO="
      (fun _ => Except.ok "out")).2.1 = "Set environment variable FOO=" ∧
    pyStartsWith
      ((handle_env_var_setting initSessionState "FOO="
        (fun _ => Except.ok "out")).2.1) "Error" = false := by
  refine ⟨by decide, by decide, by decide⟩

/-- C9 (amended): a VariableAssignment command whose value after `=` is
empty is handled as a normal assignment — the variable is set to the
empty string and the usual confirmation is returned on a successful
dispatch; the handler converts a dispatch exception into an error
string and nothing propagates past it. -/
theorem env_missing_value_amended (st : SessionState)
    (command var_name : String) (r : RemoteResponse)
    (h : splitEnvVar (pyStrip command) = some (var_name, "")) :
    (handle_env_var_setting st command r).1.environment_vars
      = updateAssoc st.environment_vars var_name "" ∧
    (∀ out, r (buildEnvSetCmd st.current_directory var_name "") = Except.ok out →
      (handle_env_var_setting st command r).2.1
        = "Set environment variable " ++ var_name ++ "=") ∧
    (∀ e, r (buildEnvSetCmd st.current_directory var_name "") = Except.error e →
      (handle_env_var_setting st command r).2.1
        = "Error setting environment variable: " ++ e) := by
  unfold handle_env_var_setting
  rw [h]
  refine ⟨?_, ?_, ?_⟩
  · cases hr : r (buildEnvSetCmd st.current_directory var_name "") <;> simp [hr]
  · intro out hout; simp [hout]
  · intro e he; simp [he]

/-- C9 witness. -/
theorem env_missing_value_amended_witness :
    (handle_env_var_setting initSessionState "FOO="
      (fun _ => Except.ok "out")).2.1 = "Set environment variable " ++ "FOO" ++ "=" :=
  (env_missing_value_amended initSessionState "FOO=" "FOO"
    (fun _ => Except.ok "out") (by decide)).2.1 "out" rfl

/-- C2: when the probe's trimmed output is the sentinel,
`_handle_cd_command` leaves the state untouched (directory, variables
and history alike) and returns the sentinel; for any other output it
sets `current_directory` to the trimmed output, records the original
command in history, and returns the confirmation string. -/
theorem handle_cd_sentinel_spec (st : SessionState) (command out : String)
    (r : RemoteResponse)
    (hr : r (buildCheckCmd st.current_directory (cdDirPath command))
      = Except.ok out) :
    (pyStrip out = "Directory not found" →
      handle_cd_command st command r
        = Except.ok (st, "Directory not found",
            buildCheckCmd st.current_directory (cdDirPath command))) ∧
    (pyStrip out ≠ "Directory not found" →
      handle_cd_command st command r
        = Except.ok
            ({ st with
                current_directory := pyStrip out
                command_history := st.command_history ++ [command] },
              "Changed to directory: " ++ pyStrip out,
              buildCheckCmd st.current_directory (cdDirPath command))) := by
  constructor
  · intro h; simp [handle_cd_command, hr, h]
  · intro h; simp [handle_cd_command, hr, h]

/-- C2 witness: a successful probe adopts the trimmed output, a
sentinel probe leaves the initial state untouched. -/
theorem handle_cd_sentinel_spec_witness :
    handle_cd_command initSessionState "cd /tmp"
        (fun _ => Except.ok " /tmp\n")
      = Except.ok
          ({ initSessionState with
              current_directory := pyStrip " /tmp\n"
              command_history := initSessionState.command_history ++ ["cd /tmp"] },
            "Changed to directory: " ++ pyStrip " /tmp\n",
            buildCheckCmd initSessionState.current_directory
              (cdDirPath "cd /tmp")) ∧
    handle_cd_command initSessionState "cd /nope"
        (fun _ => Except.ok "Directory not found\n")
      = Except.ok (initSessionState, "Directory not found",
          buildCheckCmd initSessionState.current_directory
            (cdDirPath "cd /nope")) :=
  ⟨(handle_cd_sentinel_spec initSessionState "cd /tmp" " /tmp\n"
      (fun _ => Except.ok " /tmp\n") rfl).2 (by decide),
    (handle_cd_sentinel_spec initSessionState "cd /nope" "Directory not found\n"
      (fun _ => Except.ok "Directory not found\n") rfl).1 (by decide)⟩

/-- C4 counterexample: a transport failure while handling a `cd`
command is not caught — `execute_command` propagates the exception and
the following atomic command (`echo hi`) never executes, so no result
is produced for it. -/
theorem cd_dispatch_failure_propagates :
    classify "cd /nope" = CommandKind.DirectoryChange ∧
    execute_command initSessionState "cd /nope && echo hi"
      (fun _ _ => Except.error "boom") = Except.error "boom" := by
  refine ⟨by decide, by decide⟩

/-- C4 (amended): a remote dispatch failure during a VariableAssignment
or GeneralExecution command is caught inside that command's handler and
converted to an error result string, and the remaining atomic commands
of the compound call still execute, one result per command; but a
dispatch or fetch failure during a DirectoryChange command propagates
out of the loop and aborts the remaining atomic commands. -/
theorem dispatch_failure_containment_amended :
    (∀ (st : SessionState) (cmds : List String) (o : RemoteOracle) (n : Nat),
      (∀ c ∈ cmds, classify c ≠ CommandKind.DirectoryChange) →
      ∃ s rs ds, runCommands st cmds o n = Except.ok (s, rs, ds) ∧
        rs.length = cmds.length) ∧
    (∀ (st : SessionState) (cmd : String) (rest : List String)
        (o : RemoteOracle) (n : Nat) (e : String),
      classify cmd = CommandKind.DirectoryChange →
      (∀ s, o n s = Except.error e) →
      runCommands st (cmd :: rest) o n = Except.error e) := by
  constructor
  · intro st cmds o n h
    induction cmds generalizing st n with
    | nil => exact ⟨st, [], [], rfl, rfl⟩
    | cons c cs ih =>
      have hc : classify c ≠ CommandKind.DirectoryChange := h c (by simp)
      have hcs : ∀ x ∈ cs, classify x ≠ CommandKind.DirectoryChange :=
        fun x hx => h x (by simp [hx])
      cases hcl : classify c with
      | DirectoryChange => exact absurd hcl hc
      | VariableAssignment =>
        rcases hh : handle_env_var_setting st c (o n) with ⟨st1, res, dOpt⟩
        cases dOpt with
        | some disp =>
          obtain ⟨s, rs, ds, hrun, hlen⟩ := ih st1 (n + 1) hcs
          refine ⟨s, res :: rs, disp :: ds, ?_, by simp [hlen]⟩
          simp [runCommands, hcl, hh, hrun]
        | none =>
          obtain ⟨s, rs, ds, hrun, hlen⟩ := ih st1 n hcs
          refine ⟨s, res :: rs, ds, ?_, by simp [hlen]⟩
          simp [runCommands, hcl, hh, hrun]
      | GeneralExecution =>
        rcases hh : execute_normal_command st c (o n) with ⟨st1, res, disp⟩
        obtain ⟨s, rs, ds, hrun, hlen⟩ := ih st1 (n + 1) hcs
        refine ⟨s, res :: rs, disp :: ds, ?_, by simp [hlen]⟩
        simp [runCommands, hcl, hh, hrun]
  · intro st cmd rest o n e hcl ho
    simp [runCommands, hcl, handle_cd_command, ho]

/-- C4 witness: a compound call of two non-`cd` commands against a
remote that always raises still produces one result per command, and a
failing `cd` aborts. -/
theorem dispatch_failure_containment_amended_witness :
    (runCommands initSessionState ["pwd", "FOO=1"]
      (fun _ _ => Except.error "x") 0).isOk = true ∧
    runCommands initSessionState ["cd /nope"]
      (fun _ _ => Except.error "boom") 0 = Except.error "boom" := by
  constructor
  · obtain ⟨s, rs, ds, hrun, hlen⟩ :=
      dispatch_failure_containment_amended.1 initSessionState ["pwd", "FOO=1"]
        (fun _ _ => Except.error "x") 0 (by decide)
    rw [hrun]; rfl
  · exact dispatch_failure_containment_amended.2 initSessionState "cd /nope" []
      (fun _ _ => Except.error "boom") 0 "boom" (by decide) (fun _ => rfl)

/-- C5: a GeneralExecution command dispatches exactly
`cd '<current_directory>' && <env prefix><command>`, where the env
prefix renders every tracked variable as `name='value'` joined by
single spaces with a trailing space (empty when none are tracked); on a
successful fetch the handler returns the raw untrimmed output and
appends the command to history; it never mutates `current_directory` or
`environment_vars` for any response. -/
theorem execute_normal_spec (st : SessionState) (command : String)
    (r : RemoteResponse) :
    (execute_normal_command st command r).2.2
      = "cd '" ++ st.current_directory ++ "' && "
          ++ envPrefixString st.environment_vars ++ command ∧
    (st.environment_vars = [] → envPrefixString st.environment_vars = "") ∧
    (st.environment_vars ≠ [] → envPrefixString st.environment_vars
      = joinWith " "
          (st.environment_vars.map (fun p => p.1 ++ "='" ++ p.2 ++ "'"))
        ++ " ") ∧
    (execute_normal_command st command r).1.current_directory
      = st.current_directory ∧
    (execute_normal_command st command r).1.environment_vars
      = st.environment_vars ∧
    (∀ out, r (buildNormalCommand st command) = Except.ok out →
      (execute_normal_command st command r).2.1 = out ∧
      (execute_normal_command st command r).1.command_history
        = st.command_history ++ [command]) := by
  refine ⟨?_, ?_, ?_, ?_, ?_, ?_⟩
  · cases hq : r (buildNormalCommand st command) <;>
      simp only [execute_normal_command, hq] <;> rfl
  · intro h; simp [envPrefixString, envVarsString, h, joinWith]
  · intro h
    obtain ⟨p, rest, hm⟩ : ∃ p rest, st.environment_vars = p :: rest := by
      cases hm : st.environment_vars with
      | nil => exact absurd hm h
      | cons p rest => exact ⟨p, rest, rfl⟩
    rw [hm]
    unfold envPrefixString
    rw [if_neg (envVarsString_cons_ne_empty p rest)]
    rfl
  · cases hq : r (buildNormalCommand st command) <;>
      simp only [execute_normal_command, hq]
  · cases hq : r (buildNormalCommand st command) <;>
      simp only [execute_normal_command, hq]
  · intro out hout
    simp only [execute_normal_command, hout]
    constructor <;> first | rfl | trivial

/-- C5 witness: with `FOO=bar` and `BAZ=2` tracked, `ls` dispatches the
fully rendered remote string, returns the raw output, and leaves the
directory and variables untouched. -/
theorem execute_normal_spec_witness :
    (execute_normal_command
        { current_directory := "/tmp"
          environment_vars := [("FOO", "bar"), ("BAZ", "2")]
          command_history := [] } "ls"
        (fun _ => Except.ok " out \n")).2.2
      = "cd '" ++ "/tmp" ++ "' && "
          ++ envPrefixString [("FOO", "bar"), ("BAZ", "2")] ++ "ls" ∧
    (execute_normal_command
        { current_directory := "/tmp"
          environment_vars := [("FOO", "bar"), ("BAZ", "2")]
          command_history := [] } "ls"
        (fun _ => Except.ok " out \n")).2.1 = " out \n" :=
  ⟨(execute_normal_spec
      { current_directory := "/tmp"
        environment_vars := [("FOO", "bar"), ("BAZ", "2")]
        command_history := [] } "ls" (fun _ => Except.ok " out \n")).1,
    ((execute_normal_spec
      { current_directory := "/tmp"
        environment_vars := [("FOO", "bar"), ("BAZ", "2")]
        command_history := [] } "ls" (fun _ => Except.ok " out \n")).2.2.2.2.2
      " out \n" rfl).1⟩

/-- C6: `execute_command` splits its input on the literal `&&`, trims
each segment and drops the empty ones, runs the resulting atomic
commands strictly in input order, and joins the per-command results
with newlines; sequentiality is exact: running `l1 ++ l2` runs `l1`
first and then runs `l2` from the state `l1` left behind (with the
oracle call index advanced by the dispatches `l1` made), concatenating
results and dispatch traces. -/
theorem execute_split_and_sequential :
    (∀ (st : SessionState) (input : String) (o : RemoteOracle),
      execute_command st input o =
        match runCommands st
            (((pySplitSep input).map pyStrip).filter (fun c => c != ""))
            o 0 with
        | Except.error e => Except.error e
        | Except.ok (s, rs, ds) => Except.ok (s, joinWith "\n" rs, ds)) ∧
    (∀ (st : SessionState) (l1 l2 : List String) (o : RemoteOracle) (n : Nat)
        (s1 : SessionState) (rs1 ds1 : List String),
      runCommands st l1 o n = Except.ok (s1, rs1, ds1) →
      runCommands st (l1 ++ l2) o n =
        match runCommands s1 l2 o (n + ds1.length) with
        | Except.error e => Except.error e
        | Except.ok (s2, rs2, ds2) =>
          Except.ok (s2, rs1 ++ rs2, ds1 ++ ds2)) := by
  constructor
  · intro st input o
    rfl
  · intro st l1 l2 o n s1 rs1 ds1 h
    induction l1 generalizing st n rs1 ds1 with
    | nil =>
      simp only [runCommands, Except.ok.injEq, Prod.mk.injEq] at h
      obtain ⟨h1, h2, h3⟩ := h
      subst h1; subst h2; subst h3
      simp only [List.nil_append, List.length_nil, Nat.add_zero]
      cases hk : runCommands st l2 o n with
      | error e => simp [hk]
      | ok t => rcases t with ⟨s2, rs2, ds2⟩; simp [hk]
    | cons c cs ih =>
      simp only [List.cons_append]
      simp only [runCommands] at h ⊢
      cases hcl : classify c with
      | DirectoryChange =>
        simp only [hcl] at h ⊢
        cases hcd : handle_cd_command st c (o n) with
        | error e => simp [hcd] at h
        | ok t =>
          rcases t with ⟨st1, res, disp⟩
          simp only [hcd] at h ⊢
          cases hrec : runCommands st1 cs o (n + 1) with
          | error e => simp [hrec] at h
          | ok t2 =>
            rcases t2 with ⟨sA, rsA, dsA⟩
            rw [hrec] at h
            simp only [Except.ok.injEq, Prod.mk.injEq] at h
            obtain ⟨h1, h2, h3⟩ := h
            subst h1; subst h2; subst h3
            rw [ih st1 (n + 1) rsA dsA hrec]
            simp only [List.length_cons]
            have harith : n + 1 + dsA.length = n + (dsA.length + 1) := by omega
            rw [harith]
            cases hk : runCommands sA l2 o (n + (dsA.length + 1)) with
            | error e => simp [hk]
            | ok t3 => rcases t3 with ⟨s2, rs2, ds2⟩; simp [hk]
      | VariableAssignment =>
        simp only [hcl] at h ⊢
        rcases hh : handle_env_var_setting st c (o n) with ⟨st1, res, dOpt⟩
        cases dOpt with
        | some disp =>
          simp only [hh] at h ⊢
          cases hrec : runCommands st1 cs o (n + 1) with
          | error e => simp [hrec] at h
          | ok t2 =>
            rcases t2 with ⟨sA, rsA, dsA⟩
            rw [hrec] at h
            simp only [Except.ok.injEq, Prod.mk.injEq] at h
            obtain ⟨h1, h2, h3⟩ := h
            subst h1; subst h2; subst h3
            rw [ih st1 (n + 1) rsA dsA hrec]
            simp only [List.length_cons]
            have harith : n + 1 + dsA.length = n + (dsA.length + 1) := by omega
            rw [harith]
            cases hk : runCommands sA l2 o (n + (dsA.length + 1)) with
            | error e => simp [hk]
            | ok t3 => rcases t3 with ⟨s2, rs2, ds2⟩; simp [hk]
        | none =>
          simp only [hh] at h ⊢
          cases hrec : runCommands st1 cs o n with
          | error e => simp [hrec] at h
          | ok t2 =>
            rcases t2 with ⟨sA, rsA, dsA⟩
            rw [hrec] at h
            simp only [Except.ok.injEq, Prod.mk.injEq] at h
            obtain ⟨h1, h2, h3⟩ := h
            subst h1; subst h2; subst h3
            rw [ih st1 n rsA dsA hrec]
            cases hk : runCommands sA l2 o (n + dsA.length) with
            | error e => simp [hk]
            | ok t3 => rcases t3 with ⟨s2, rs2, ds2⟩; simp [hk]
      | GeneralExecution =>
        simp only [hcl] at h ⊢
        rcases hh : execute_normal_command st c (o n) with ⟨st1, res, disp⟩
        simp only [hh] at h ⊢
        cases hrec : runCommands st1 cs o (n + 1) with
        | error e => simp [hrec] at h
        | ok t2 =>
          rcases t2 with ⟨sA, rsA, dsA⟩
          rw [hrec] at h
          simp only [Except.ok.injEq, Prod.mk.injEq] at h
          obtain ⟨h1, h2, h3⟩ := h
          subst h1; subst h2; subst h3
          rw [ih st1 (n + 1) rsA dsA hrec]
          simp only [List.length_cons]
          have harith : n + 1 + dsA.length = n + (dsA.length + 1) := by omega
          rw [harith]
          cases hk : runCommands sA l2 o (n + (dsA.length + 1)) with
          | error e => simp [hk]
          | ok t3 => rcases t3 with ⟨s2, rs2, ds2⟩; simp [hk]

/-- C6 witness: two general commands run in sequence, results and
dispatch traces concatenated. -/
theorem execute_split_and_sequential_witness :
    runCommands initSessionState (["x"] ++ ["y"]) (fun _ _ => Except.ok "A") 0
      = Except.ok ({ initSessionState with command_history := ["x", "y"] },
          ["A", "A"],
          ["cd '/home/ec2-user' && x", "cd '/home/ec2-user' && y"]) := by
  rw [execute_split_and_sequential.2 initSessionState ["x"] ["y"]
    (fun _ _ => Except.ok "A") 0
    { initSessionState with command_history := ["x"] } ["A"]
    ["cd '/home/ec2-user' && x"] (by decide)]
  decide

theorem waitFrom_first_terminal (q : Nat → Except String String) (t : Nat) :
    ∀ (fuel a A : Nat), A < fuel → attemptTerminates q (a + A) →
      (∀ b, b < A → ¬ attemptTerminates q (a + b)) →
      waitFrom q t a fuel
        = (true, (List.range A).map (fun i => sleepAt q t (a + i))) := by
  intro fuel
  induction fuel with
  | zero => intro a A hA; omega
  | succ fuel ih =>
    intro a A hA hterm hbefore
    cases A with
    | zero =>
      obtain ⟨s, hs, hts⟩ : attemptTerminates q a := by simpa using hterm
      simp [waitFrom, hs, hts]
    | succ K =>
      have hnot : ¬ attemptTerminates q a := by
        simpa using hbefore 0 (Nat.succ_pos K)
      have hterm' : attemptTerminates q (a + 1 + K) := by
        have e : a + 1 + K = a + (K + 1) := by omega
        rw [e]; exact hterm
      have hbefore' : ∀ b, b < K → ¬ attemptTerminates q (a + 1 + b) := by
        intro b hb
        have e : a + 1 + b = a + (b + 1) := by omega
        rw [e]; exact hbefore (b + 1) (by omega)
      have htrace :
          (List.range (K + 1)).map (fun i => sleepAt q t (a + i))
            = sleepAt q t a
                :: (List.range K).map (fun i => sleepAt q t (a + 1 + i)) := by
        rw [List.range_succ_eq_map, List.map_cons, List.map_map, Nat.add_zero]
        exact congrArg (List.cons (sleepAt q t a))
          (List.map_congr_left (fun i _ => by
            simp only [Function.comp_apply]
            exact congrArg (sleepAt q t) (by omega)))
      cases hq : q a with
      | error e =>
        have hsleep : sleepAt q t a = t := by simp [sleepAt, hq]
        simp only [waitFrom, hq]
        rw [ih (a + 1) K (by omega) hterm' hbefore', htrace, hsleep]
      | ok s =>
        have hns : isTerminalStatus s = false := by
          by_contra hc
          exact hnot ⟨s, hq, by simpa using hc⟩
        have hsleep : sleepAt q t a = backoffSleep t a := by simp [sleepAt, hq]
        simp only [waitFrom, hq, hns, Bool.false_eq_true, if_false]
        rw [ih (a + 1) K (by omega) hterm' hbefore', htrace, hsleep]

theorem waitFrom_exhausted (q : Nat → Except String String) (t : Nat) :
    ∀ (fuel a : Nat), (∀ b, b < fuel → ¬ attemptTerminates q (a + b)) →
      waitFrom q t a fuel
        = (false, (List.range fuel).map (fun i => sleepAt q t (a + i))) := by
  intro fuel
  induction fuel with
  | zero => intro a _; simp [waitFrom]
  | succ fuel ih =>
    intro a h
    have hnot : ¬ attemptTerminates q a := by
      simpa using h 0 (Nat.succ_pos fuel)
    have h' : ∀ b, b < fuel → ¬ attemptTerminates q (a + 1 + b) := by
      intro b hb
      have e : a + 1 + b = a + (b + 1) := by omega
      rw [e]; exact h (b + 1) (by omega)
    have htrace :
        (List.range (fuel + 1)).map (fun i => sleepAt q t (a + i))
          = sleepAt q t a
              :: (List.range fuel).map (fun i => sleepAt q t (a + 1 + i)) := by
      rw [List.range_succ_eq_map, List.map_cons, List.map_map, Nat.add_zero]
      exact congrArg (List.cons (sleepAt q t a))
        (List.map_congr_left (fun i _ => by
          simp only [Function.comp_apply]
          exact congrArg (sleepAt q t) (by omega)))
    cases hq : q a with
    | error e =>
      have hsleep : sleepAt q t a = t := by simp [sleepAt, hq]
      simp only [waitFrom, hq]
      rw [ih (a + 1) h', htrace, hsleep]
    | ok s =>
      have hns : isTerminalStatus s = false := by
        by_contra hc
        exact hnot ⟨s, hq, by simpa using hc⟩
      have hsleep : sleepAt q t a = backoffSleep t a := by simp [sleepAt, hq]
      simp only [waitFrom, hq, hns, Bool.false_eq_true, if_false]
      rw [ih (a + 1) h', htrace, hsleep]

/-- C7: `_wait_for_command` returns true with no further sleep at the
first attempt within the budget whose status query returns a terminal
status (Success, Failed, Cancelled, TimedOut), having slept once per
earlier attempt — a flat `sleep_time` after an attempt whose query
raised, `min(sleep_time * 2^attempt, 15)` after a non-terminal status —
and returns false with one sleep per attempt when the budget is
exhausted without a terminal status; the backoff sleeps are
non-decreasing in the attempt number and never exceed the 15-second
cap. -/
theorem wait_for_command_spec :
    (∀ (q : Nat → Except String String) (max_retries sleep_time A : Nat),
      A < max_retries → attemptTerminates q A →
      (∀ b, b < A → ¬ attemptTerminates q b) →
      wait_for_command q max_retries sleep_time
        = (true, (List.range A).map (sleepAt q sleep_time))) ∧
    (∀ (q : Nat → Except String String) (max_retries sleep_time : Nat),
      (∀ b, b < max_retries → ¬ attemptTerminates q b) →
      wait_for_command q max_retries sleep_time
        = (false, (List.range max_retries).map (sleepAt q sleep_time))) ∧
    (∀ sleep_time a b, a ≤ b →
      backoffSleep sleep_time a ≤ backoffSleep sleep_time b) ∧
    (∀ sleep_time a, backoffSleep sleep_time a ≤ 15) := by
  refine ⟨?_, ?_, ?_, ?_⟩
  · intro q mr t A hA hterm hb
    have h := waitFrom_first_terminal q t mr 0 A hA (by simpa using hterm)
      (fun b hb' => by simpa using hb b hb')
    simpa [wait_for_command] using h
  · intro q mr t hb
    have h := waitFrom_exhausted q t mr 0 (fun b hb' => by simpa using hb b hb')
    simpa [wait_for_command] using h
  · intro t a b hab
    unfold backoffSleep
    exact min_le_min
      (Nat.mul_le_mul_left _ (Nat.pow_le_pow_right (by omega) hab))
      (le_refl 15)
  · intro t a
    exact min_le_right _ _

/-- C7 witness: statuses Pending, Pending, Success give `true` after
three queries with the two backoff sleeps 3 and 6 seconds. -/
theorem wait_for_command_spec_witness :
    wait_for_command
      (fun a => if a < 2 then Except.ok "Pending" else Except.ok "Success")
      10 3 = (true, [3, 6]) := by
  rw [wait_for_command_spec.1
    (fun a => if a < 2 then Except.ok "Pending" else Except.ok "Success")
    10 3 2 (by omega) (by decide) (by decide)]
  rfl

end Session

-- sanity examples (concrete evaluation of the embedding)
example : Session.pyStrip "  hi  " = "hi" := by decide
example : Session.pySplitSep "a && b&&c" = ["a ", " b", "c"] := by decide
example : Session.pyStartsWith "cd /tmp" "cd " = true := by decide
example : Session.pyContainsChar "FOO=bar" '=' = true := by decide
example : Session.splitEnvVar "FOO=a=b" = some ("FOO", "a=b") := by decide
example : Session.cdDirPath "cd /tmp" = "/tmp" := by decide
example : Session.classify "cd" = Session.CommandKind.GeneralExecution := by decide
example : Session.classify "cd /tmp" = Session.CommandKind.DirectoryChange := by decide
example : Session.classify "FOO=1" = Session.CommandKind.VariableAssignment := by decide
example : Session.classify "echo a=b" = Session.CommandKind.GeneralExecution := by decide
